import Mathlib

/-!
# SoftRasterLearning: frame driver, input translation and motion queue

A shallow embedding of `framework::SoftRasterApp`
(`src/SoftRasterLearning/framework/softraster_app.hpp`) and the properties of
its per-frame input translation, motion queue, frame timing, platform
callbacks and move constructor.

Conventions of the embedding.

* C++ `bool[256]` / `bool[3]` arrays are total functions `Fin 256 → Bool`
  and `Fin 3 → Bool`; an element write `a[i] = v` is `setAt a i v`.
* `WPARAM` / `LPARAM` message arguments are natural numbers (the unsigned
  bit pattern the `LOWORD` / `HIWORD` macros work on).
* Signed C++ integers are `Int`. The mouse coordinates stored by the callbacks
  are always 16-bit values, so the differences taken never leave the 32-bit
  range and no wrap-around is modelled for them.
* `std::chrono::system_clock::now()` is an input of `UpdateTime`: the clock
  reading, in clock ticks, with `tpm` ticks per millisecond.
* The collaborators whose declarations are outside the two source files
  (window, render targets, scene, camera) are type parameters and function
  parameters.
-/

namespace framework

/-! ## Data model -/

/-- Message identifier `WM_MOUSEMOVE` of the Win32 headers. -/
def WM_MOUSEMOVE : Nat := 0x0200

/-- Message identifier `WM_MOUSEWHEEL` of the Win32 headers. -/
def WM_MOUSEWHEEL : Nat := 0x020A

/-- Win32 macro `LOWORD`: the low 16 bits of a message argument. -/
def LOWORD (v : Nat) : Nat := v % 65536

/-- Win32 macro `HIWORD`: bits 16..31 of a message argument. -/
def HIWORD (v : Nat) : Nat := (v / 65536) % 65536

/-- The C++ cast `(short)w` of a 16-bit word: two's complement reading. -/
def toShort (w : Nat) : Int :=
  if w % 65536 < 32768 then ((w % 65536 : Nat) : Int) else ((w % 65536 : Nat) : Int) - 65536

/-- The C++ cast `(unsigned char)w`, used as an index into the key arrays. -/
def toUChar (w : Nat) : Fin 256 := ⟨w % 256, Nat.mod_lt w (by decide)⟩

/-- An element write `a[i] = v` on a fixed-size array. -/
def setAt {n : Nat} {α : Type} (a : Fin n → α) (i : Fin n) (v : α) : Fin n → α :=
  fun j => if j = i then v else a j

/-- Modelled from the spec: the declaration of `MouseState` (in
`render_engine.hpp`) is not among the source files. The members are the ones
`softraster_app.hpp` reads and writes through `input_state.mouse_state`; the
spec lists them as x, y, dx, dy, scroll and per-button
current/previous/pressed/released. -/
structure MouseState where
  x : Int
  y : Int
  dx : Int
  dy : Int
  scroll : Int
  button : Fin 3 → Bool
  button_old : Fin 3 → Bool
  button_pressed : Fin 3 → Bool
  button_released : Fin 3 → Bool

/-- The value of the aggregate initialiser `{ 0 }`: the first member is 0 and
every other member is value-initialised (zero / false). -/
def MouseState.zero : MouseState :=
  { x := 0, y := 0, dx := 0, dy := 0, scroll := 0,
    button := fun _ => false, button_old := fun _ => false,
    button_pressed := fun _ => false, button_released := fun _ => false }

/-- Modelled from the spec: the declaration of `InputState` is not among the
source files. Per key code it holds current (`key`), previous (`key_old`),
pressed-this-frame and released-this-frame booleans, and it holds the mouse
state; the member names are the ones `softraster_app.hpp` uses. -/
structure InputState where
  key : Fin 256 → Bool
  key_old : Fin 256 → Bool
  key_pressed : Fin 256 → Bool
  key_released : Fin 256 → Bool
  mouse_state : MouseState

/-- The value-initialised input state `input_state{}` of the constructor. -/
def InputState.zero : InputState :=
  { key := fun _ => false, key_old := fun _ => false,
    key_pressed := fun _ => false, key_released := fun _ => false,
    mouse_state := MouseState.zero }

/-- Modelled from the spec: the declaration of `MouseMotion` is not among the
source files. A queued motion event is built as
`{ message id, input_state.mouse_state }`: the event kind and the mouse state
snapshot at emission time. -/
structure MouseMotion where
  kind : Nat
  mouse_state : MouseState

/-- Modelled from the spec: the declaration of `EngineState` is not among the
source files. It holds the current timestamp (`time`, the clock reading in
ticks), the frame delta as a duration (`delta`, in milliseconds), the frame
delta in milliseconds (`delta_count`), the cumulative elapsed time and the
frame counter. The integer members are unbounded here. -/
structure EngineState where
  time : Int
  delta : Int
  delta_count : Int
  total_time : Int
  frame_count : Nat

/-- The data members of `SoftRasterApp` (lines 17-23), in declaration order.
`W`, `C`, `G`, `S` stand for `core::DC_WND`, `core::Context<core::Color>`,
`core::Context<GbufferType>` and `std::shared_ptr<IScene>`. -/
structure SoftRasterApp (W C G S : Type) where
  input_state : InputState
  engine_state : EngineState
  mouse_motions : List MouseMotion
  dc_wnd : W
  ctx : C
  gbuffer : G
  scene : S

/-! ## `TranslateInput` (lines 218-242) -/

/-- Body of the key loop (lines 222-229) for index `i`. -/
def translateKey (s : InputState) (i : Fin 256) : InputState :=
  let s := { s with key_pressed := setAt s.key_pressed i false }
  let s := { s with key_released := setAt s.key_released i false }
  let s :=
    if s.key i != s.key_old i then
      let s := { s with key_pressed := setAt s.key_pressed i (!s.key i) }
      { s with key_released := setAt s.key_released i (s.key i) }
    else s
  { s with key_old := setAt s.key_old i (s.key i) }

/-- Body of the mouse button loop (lines 233-240) for index `i`. -/
def translateButton (s : InputState) (i : Fin 3) : InputState :=
  let m := s.mouse_state
  let m := { m with button_pressed := setAt m.button_pressed i false }
  let m := { m with button_released := setAt m.button_released i false }
  let m :=
    if m.button i != m.button_old i then
      let m := { m with button_pressed := setAt m.button_pressed i (!m.button i) }
      { m with button_released := setAt m.button_released i (m.button i) }
    else m
  let m := { m with button_old := setAt m.button_old i (m.button i) }
  { s with mouse_state := m }

/-- The two loops of `TranslateInput`: `i = 0 .. 255` over the keys, then
`i = 0 .. 2` over the mouse buttons. -/
def TranslateInput (s : InputState) : InputState :=
  (List.finRange 3).foldl translateButton ((List.finRange 256).foldl translateKey s)

/-- The producer write `input_state.key[i] = v`. -/
def writeKey (s : InputState) (i : Fin 256) (v : Bool) : InputState :=
  { s with key := setAt s.key i v }

/-- The producer write `input_state.mouse_state.button[i] = v`. -/
def writeButton (s : InputState) (i : Fin 3) (v : Bool) : InputState :=
  { s with mouse_state := { s.mouse_state with button := setAt s.mouse_state.button i v } }

/-! ## `UpdateTime` (lines 111-119) -/

/-- One call of `UpdateTime` with clock reading `now` (in ticks, `tpm` ticks
per millisecond). `duration_cast<milliseconds>` is integer division truncating
toward zero. -/
def UpdateTime (tpm : Int) (e : EngineState) (now : Int) : EngineState :=
  let last := e.time
  let e := { e with time := now }
  let e := { e with delta := Int.tdiv (e.time - last) tpm }
  let e := { e with delta_count := e.delta }
  let e := { e with total_time := e.total_time + e.delta_count }
  { e with frame_count := e.frame_count + 1 }

/-- Consecutive `UpdateTime` calls, one per clock reading, in order. -/
def runUpdateTime (tpm : Int) (e : EngineState) (readings : List Int) : EngineState :=
  readings.foldl (UpdateTime tpm) e

/-- The engine state at the start of the render loop: `engine_state{}` of the
constructor, then `engine_state.time = now()` (line 84). -/
def initialEngineState (t0 : Int) : EngineState :=
  { time := t0, delta := 0, delta_count := 0, total_time := 0, frame_count := 0 }

/-- Specification side of the frame timing: the whole-millisecond frame deltas
of a sequence of clock readings that starts after the reading `prev`. -/
def msDeltas (tpm : Int) : Int → List Int → List Int
  | _, [] => []
  | prev, t :: ts => (t - prev) / tpm :: msDeltas tpm t ts

/-- The clock reading `t_k` of the sequence `t0, t1, .., tn`: `t_0` is the
timestamp taken before the loop starts, `t_k` the reading of the `k`-th
`UpdateTime` call. -/
def reading (t0 : Int) (readings : List Int) (k : Nat) : Int :=
  (t0 :: readings).getD k 0

/-! ## Platform callbacks registered by `HookInput` (lines 123-197) -/

section Callbacks

variable {W C G S : Type}

/-- Callback of `WM_KEYDOWN` (lines 125-129). -/
def onKeyDown (app : SoftRasterApp W C G S) (wParam _lParam : Nat) : SoftRasterApp W C G S :=
  let key_id := toUChar (LOWORD wParam)
  { app with input_state := writeKey app.input_state key_id true }

/-- Callback of `WM_KEYUP` (lines 131-135). -/
def onKeyUp (app : SoftRasterApp W C G S) (wParam _lParam : Nat) : SoftRasterApp W C G S :=
  let key_id := toUChar (LOWORD wParam)
  { app with input_state := writeKey app.input_state key_id false }

/-- Callback of `WM_MOUSEMOVE` (lines 137-154). The `TrackMouseEvent` request
has no effect on the application state. -/
def onMouseMove (app : SoftRasterApp W C G S) (_wParam lParam : Nat) : SoftRasterApp W C G S :=
  let m := app.input_state.mouse_state
  let m := { m with dx := toShort (LOWORD lParam) - m.x }
  let m := { m with dy := toShort (HIWORD lParam) - m.y }
  let m := { m with x := toShort (LOWORD lParam) }
  let m := { m with y := toShort (HIWORD lParam) }
  { app with
    input_state := { app.input_state with mouse_state := m }
    mouse_motions := app.mouse_motions ++ [{ kind := WM_MOUSEMOVE, mouse_state := m }] }

/-- Callback of `WM_MOUSELEAVE` (lines 156-159). -/
def onMouseLeave (app : SoftRasterApp W C G S) (_wParam _lParam : Nat) : SoftRasterApp W C G S :=
  { app with input_state := { app.input_state with mouse_state := MouseState.zero } }

/-- The assignment `input_state.mouse_state.button[i] = v` of the six button
callbacks. -/
def setButton (app : SoftRasterApp W C G S) (i : Fin 3) (v : Bool) : SoftRasterApp W C G S :=
  { app with input_state := writeButton app.input_state i v }

/-- Callback of `WM_LBUTTONDOWN` (lines 161-164). -/
def onLButtonDown (app : SoftRasterApp W C G S) (_wParam _lParam : Nat) : SoftRasterApp W C G S :=
  setButton app 0 true

/-- Callback of `WM_LBUTTONUP` (lines 166-169). -/
def onLButtonUp (app : SoftRasterApp W C G S) (_wParam _lParam : Nat) : SoftRasterApp W C G S :=
  setButton app 0 false

/-- Callback of `WM_RBUTTONDOWN` (lines 171-174). -/
def onRButtonDown (app : SoftRasterApp W C G S) (_wParam _lParam : Nat) : SoftRasterApp W C G S :=
  setButton app 2 true

/-- Callback of `WM_RBUTTONUP` (lines 176-179). -/
def onRButtonUp (app : SoftRasterApp W C G S) (_wParam _lParam : Nat) : SoftRasterApp W C G S :=
  setButton app 2 false

/-- Callback of `WM_MBUTTONDOWN` (lines 181-184). -/
def onMButtonDown (app : SoftRasterApp W C G S) (_wParam _lParam : Nat) : SoftRasterApp W C G S :=
  setButton app 1 true

/-- Callback of `WM_MBUTTONUP` (lines 186-189). -/
def onMButtonUp (app : SoftRasterApp W C G S) (_wParam _lParam : Nat) : SoftRasterApp W C G S :=
  setButton app 1 false

/-- Callback of `WM_MOUSEWHEEL` (lines 191-196). -/
def onMouseWheel (app : SoftRasterApp W C G S) (wParam _lParam : Nat) : SoftRasterApp W C G S :=
  let m := app.input_state.mouse_state
  let m := { m with scroll := toShort (HIWORD wParam) }
  { app with
    input_state := { app.input_state with mouse_state := m }
    mouse_motions := app.mouse_motions ++ [{ kind := WM_MOUSEWHEEL, mouse_state := m }] }

/-- The window messages `HookInput` registers a callback for. -/
inductive WndMsg where
  | WM_KEYDOWN | WM_KEYUP | WM_MOUSEMOVE | WM_MOUSELEAVE
  | WM_LBUTTONDOWN | WM_LBUTTONUP | WM_RBUTTONDOWN | WM_RBUTTONUP
  | WM_MBUTTONDOWN | WM_MBUTTONUP | WM_MOUSEWHEEL
  deriving DecidableEq, Repr

/-- The callback table built by `HookInput`: the callback of each message. -/
def HookInput (msg : WndMsg) (app : SoftRasterApp W C G S) (wParam lParam : Nat) :
    SoftRasterApp W C G S :=
  match msg with
  | .WM_KEYDOWN => onKeyDown app wParam lParam
  | .WM_KEYUP => onKeyUp app wParam lParam
  | .WM_MOUSEMOVE => onMouseMove app wParam lParam
  | .WM_MOUSELEAVE => onMouseLeave app wParam lParam
  | .WM_LBUTTONDOWN => onLButtonDown app wParam lParam
  | .WM_LBUTTONUP => onLButtonUp app wParam lParam
  | .WM_RBUTTONDOWN => onRButtonDown app wParam lParam
  | .WM_RBUTTONUP => onRButtonUp app wParam lParam
  | .WM_MBUTTONDOWN => onMButtonDown app wParam lParam
  | .WM_MBUTTONUP => onMButtonUp app wParam lParam
  | .WM_MOUSEWHEEL => onMouseWheel app wParam lParam

/-- A run of `WM_MOUSEMOVE` messages with the given `lParam` values, delivered
in order with no drain in between. -/
def deliverMouseMoves (app : SoftRasterApp W C G S) (lParams : List Nat) : SoftRasterApp W C G S :=
  lParams.foldl (fun a l => onMouseMove a 0 l) app

/-- The absolute position a `WM_MOUSEMOVE` message carries in its `lParam`. -/
def cursorPos (lParam : Nat) : Int × Int := (toShort (LOWORD lParam), toShort (HIWORD lParam))

/-- The position `(x_k, y_k)` of a run of mouse moves: `(x_0, y_0)` is the
position in the mouse state before the run, `(x_k, y_k)` the position carried
by the `k`-th message. -/
def cursorAt (m0 : MouseState) (lParams : List Nat) (k : Nat) : Int × Int :=
  match k with
  | 0 => (m0.x, m0.y)
  | j + 1 => cursorPos (lParams.getD j 0)

/-- The mouse state written by the `WM_MOUSEMOVE` callback (lines 138-141). -/
def movedMouse (m : MouseState) (lParam : Nat) : MouseState :=
  { m with
    dx := toShort (LOWORD lParam) - m.x
    dy := toShort (HIWORD lParam) - m.y
    x := toShort (LOWORD lParam)
    y := toShort (HIWORD lParam) }

/-- The snapshots a run of `WM_MOUSEMOVE` messages pushes, starting from the
mouse state `m`. -/
def moveSnapshots : MouseState → List Nat → List MouseMotion
  | _, [] => []
  | m, l :: ls => { kind := WM_MOUSEMOVE, mouse_state := movedMouse m l } ::
      moveSnapshots (movedMouse m l) ls

/-! ## `HandleInput` (lines 245-255) -/

/-- The drain loop `while (mouse_motions.size()) { front; OnMouseMotion; pop }`
(lines 248-253). `onMouseMotion` is the effect of the main camera's
`OnMouseMotion` on the scene that owns the camera. The loop runs on the queue
itself: each iteration removes the front element. -/
def drainMotions (onMouseMotion : S → MouseMotion → S) :
    S → List MouseMotion → S × List MouseMotion
  | scene, [] => (scene, [])
  | scene, motion :: rest => drainMotions onMouseMotion (onMouseMotion scene motion) rest

/-- One call of `HandleInput`: `TranslateInput`, the drain loop, then
`scene->HandleInput(*this)`, whose effect on the scene, given the input state
it can read, is `sceneHandleInput`. -/
def HandleInput (onMouseMotion : S → MouseMotion → S) (sceneHandleInput : S → InputState → S)
    (app : SoftRasterApp W C G S) : SoftRasterApp W C G S :=
  let app := { app with input_state := TranslateInput app.input_state }
  let r := drainMotions onMouseMotion app.scene app.mouse_motions
  let app := { app with scene := r.1, mouse_motions := r.2 }
  { app with scene := sceneHandleInput app.scene app.input_state }

/-- A camera that records the events its `OnMouseMotion` receives, in order. -/
def recordMotion (seen : List MouseMotion) (motion : MouseMotion) : List MouseMotion :=
  seen ++ [motion]

/-! ## Move constructor (lines 33-40) -/

/-- The move constructor `SoftRasterApp(SoftRasterApp&& other)`. Its member
initialiser list names `input_state`, `engine_state`, `dc_wnd`, `ctx` and
`scene`; the members it does not name, `mouse_motions` and `gbuffer`, are
default-constructed (`gbuffer0` is the default-constructed
`core::Context<GbufferType>`). -/
def moveConstruct (gbuffer0 : G) (other : SoftRasterApp W C G S) : SoftRasterApp W C G S :=
  { input_state := other.input_state
    engine_state := other.engine_state
    mouse_motions := []
    dc_wnd := other.dc_wnd
    ctx := other.ctx
    gbuffer := gbuffer0
    scene := other.scene }

end Callbacks

/-! ## Concrete states used as test inputs -/

/-- An application whose left mouse button is held and has been seen held by
a previous `TranslateInput`: `button[0]` and `button_old[0]` are both true.
The collaborators carry no data. -/
def heldButtonApp : SoftRasterApp Unit Unit Unit Unit :=
  { input_state :=
      { InputState.zero with
        mouse_state :=
          { MouseState.zero with
            x := 120, y := 80
            button := fun i => decide (i = 0)
            button_old := fun i => decide (i = 0) } }
    engine_state := initialEngineState 0
    mouse_motions := []
    dc_wnd := ()
    ctx := ()
    gbuffer := ()
    scene := () }

/-- An application after `Init`: both render targets have the 800 x 600
viewport. A render target is represented by its viewport size, and the
default-constructed one by `(0, 0)`. -/
def initedApp : SoftRasterApp Unit (Nat × Nat) (Nat × Nat) Unit :=
  { input_state := InputState.zero
    engine_state := initialEngineState 0
    mouse_motions := []
    dc_wnd := ()
    ctx := (800, 600)
    gbuffer := (800, 600)
    scene := () }

/-- The events `E1` (dx = 5), `E2` (dx = -3), `E3` (dx = 2). -/
def sampleMotions : List MouseMotion :=
  [ { kind := WM_MOUSEMOVE, mouse_state := { MouseState.zero with x := 5, dx := 5 } },
    { kind := WM_MOUSEMOVE, mouse_state := { MouseState.zero with x := 2, dx := -3 } },
    { kind := WM_MOUSEMOVE, mouse_state := { MouseState.zero with x := 4, dx := 2 } } ]

/-! ## Auxiliary lemmas: the loops of `TranslateInput` -/

theorem setAt_same {n : Nat} {α : Type} (a : Fin n → α) (i : Fin n) (v : α) :
    setAt a i v i = v := by
  simp [setAt]

theorem setAt_other {n : Nat} {α : Type} (a : Fin n → α) (i j : Fin n) (v : α) (h : j ≠ i) :
    setAt a i v j = a j := by
  simp [setAt, h]

theorem translateKey_key (s : InputState) (i : Fin 256) : (translateKey s i).key = s.key := by
  unfold translateKey
  by_cases h : (s.key i != s.key_old i) = true <;> simp [h]

theorem translateKey_mouse (s : InputState) (i : Fin 256) :
    (translateKey s i).mouse_state = s.mouse_state := by
  unfold translateKey
  by_cases h : (s.key i != s.key_old i) = true <;> simp [h]

theorem translateKey_at (s : InputState) (i : Fin 256) :
    (translateKey s i).key_pressed i = (!s.key i && (s.key_old i != s.key i)) ∧
    (translateKey s i).key_released i = (s.key i && (s.key_old i != s.key i)) ∧
    (translateKey s i).key_old i = s.key i := by
  unfold translateKey
  cases hk : s.key i <;> cases ho : s.key_old i <;> simp [hk, ho, setAt]

theorem translateKey_other (s : InputState) (i j : Fin 256) (h : j ≠ i) :
    (translateKey s i).key_pressed j = s.key_pressed j ∧
    (translateKey s i).key_released j = s.key_released j ∧
    (translateKey s i).key_old j = s.key_old j := by
  unfold translateKey
  by_cases hc : (s.key i != s.key_old i) = true <;> simp [hc, setAt, h]

theorem foldl_translateKey_frame (l : List (Fin 256)) (s : InputState) :
    (l.foldl translateKey s).key = s.key ∧
    (l.foldl translateKey s).mouse_state = s.mouse_state := by
  induction l generalizing s with
  | nil => exact ⟨rfl, rfl⟩
  | cons i l ih =>
    rw [List.foldl_cons]
    exact ⟨(ih _).1.trans (translateKey_key s i), (ih _).2.trans (translateKey_mouse s i)⟩

theorem foldl_translateKey_not_mem (l : List (Fin 256)) (s : InputState) (j : Fin 256)
    (hj : j ∉ l) :
    (l.foldl translateKey s).key_pressed j = s.key_pressed j ∧
    (l.foldl translateKey s).key_released j = s.key_released j ∧
    (l.foldl translateKey s).key_old j = s.key_old j := by
  induction l generalizing s with
  | nil => exact ⟨rfl, rfl, rfl⟩
  | cons i l ih =>
    rw [List.foldl_cons]
    have hji : j ≠ i := fun h => hj (h ▸ List.mem_cons_self _ _)
    have hjl : j ∉ l := fun h => hj (List.mem_cons_of_mem _ h)
    obtain ⟨h1, h2, h3⟩ := ih (translateKey s i) hjl
    obtain ⟨o1, o2, o3⟩ := translateKey_other s i j hji
    exact ⟨h1.trans o1, h2.trans o2, h3.trans o3⟩

theorem foldl_translateKey_mem (l : List (Fin 256)) (hnd : l.Nodup) (s : InputState)
    (j : Fin 256) (hj : j ∈ l) :
    (l.foldl translateKey s).key_pressed j = (!s.key j && (s.key_old j != s.key j)) ∧
    (l.foldl translateKey s).key_released j = (s.key j && (s.key_old j != s.key j)) ∧
    (l.foldl translateKey s).key_old j = s.key j := by
  induction l generalizing s with
  | nil => exact absurd hj (List.not_mem_nil j)
  | cons i l ih =>
    rw [List.foldl_cons]
    obtain ⟨hil, hl⟩ := List.nodup_cons.mp hnd
    rcases List.mem_cons.mp hj with rfl | hjl
    · obtain ⟨h1, h2, h3⟩ := foldl_translateKey_not_mem l (translateKey s j) j hil
      obtain ⟨a1, a2, a3⟩ := translateKey_at s j
      exact ⟨h1.trans a1, h2.trans a2, h3.trans a3⟩
    · have hji : j ≠ i := fun h => hil (h ▸ hjl)
      obtain ⟨h1, h2, h3⟩ := ih hl (translateKey s i) hjl
      obtain ⟨_, _, o3⟩ := translateKey_other s i j hji
      rw [translateKey_key, o3] at h1 h2
      rw [translateKey_key] at h3
      exact ⟨h1, h2, h3⟩

theorem translateButton_frame (s : InputState) (i : Fin 3) :
    (translateButton s i).key = s.key ∧
    (translateButton s i).key_old = s.key_old ∧
    (translateButton s i).key_pressed = s.key_pressed ∧
    (translateButton s i).key_released = s.key_released ∧
    (translateButton s i).mouse_state.button = s.mouse_state.button := by
  unfold translateButton
  by_cases h : (s.mouse_state.button i != s.mouse_state.button_old i) = true <;> simp [h]

theorem translateButton_at (s : InputState) (i : Fin 3) :
    (translateButton s i).mouse_state.button_pressed i =
      (!s.mouse_state.button i && (s.mouse_state.button_old i != s.mouse_state.button i)) ∧
    (translateButton s i).mouse_state.button_released i =
      (s.mouse_state.button i && (s.mouse_state.button_old i != s.mouse_state.button i)) ∧
    (translateButton s i).mouse_state.button_old i = s.mouse_state.button i := by
  unfold translateButton
  cases hk : s.mouse_state.button i <;> cases ho : s.mouse_state.button_old i <;>
    simp [hk, ho, setAt]

theorem translateButton_other (s : InputState) (i j : Fin 3) (h : j ≠ i) :
    (translateButton s i).mouse_state.button_pressed j = s.mouse_state.button_pressed j ∧
    (translateButton s i).mouse_state.button_released j = s.mouse_state.button_released j ∧
    (translateButton s i).mouse_state.button_old j = s.mouse_state.button_old j := by
  unfold translateButton
  by_cases hc : (s.mouse_state.button i != s.mouse_state.button_old i) = true <;>
    simp [hc, setAt, h]

theorem foldl_translateButton_frame (l : List (Fin 3)) (s : InputState) :
    (l.foldl translateButton s).key = s.key ∧
    (l.foldl translateButton s).key_old = s.key_old ∧
    (l.foldl translateButton s).key_pressed = s.key_pressed ∧
    (l.foldl translateButton s).key_released = s.key_released ∧
    (l.foldl translateButton s).mouse_state.button = s.mouse_state.button := by
  induction l generalizing s with
  | nil => exact ⟨rfl, rfl, rfl, rfl, rfl⟩
  | cons i l ih =>
    rw [List.foldl_cons]
    obtain ⟨h1, h2, h3, h4, h5⟩ := ih (translateButton s i)
    obtain ⟨f1, f2, f3, f4, f5⟩ := translateButton_frame s i
    exact ⟨h1.trans f1, h2.trans f2, h3.trans f3, h4.trans f4, h5.trans f5⟩

theorem foldl_translateButton_not_mem (l : List (Fin 3)) (s : InputState) (j : Fin 3)
    (hj : j ∉ l) :
    (l.foldl translateButton s).mouse_state.button_pressed j = s.mouse_state.button_pressed j ∧
    (l.foldl translateButton s).mouse_state.button_released j = s.mouse_state.button_released j ∧
    (l.foldl translateButton s).mouse_state.button_old j = s.mouse_state.button_old j := by
  induction l generalizing s with
  | nil => exact ⟨rfl, rfl, rfl⟩
  | cons i l ih =>
    rw [List.foldl_cons]
    have hji : j ≠ i := fun h => hj (h ▸ List.mem_cons_self _ _)
    have hjl : j ∉ l := fun h => hj (List.mem_cons_of_mem _ h)
    obtain ⟨h1, h2, h3⟩ := ih (translateButton s i) hjl
    obtain ⟨o1, o2, o3⟩ := translateButton_other s i j hji
    exact ⟨h1.trans o1, h2.trans o2, h3.trans o3⟩

theorem foldl_translateButton_mem (l : List (Fin 3)) (hnd : l.Nodup) (s : InputState)
    (j : Fin 3) (hj : j ∈ l) :
    (l.foldl translateButton s).mouse_state.button_pressed j =
      (!s.mouse_state.button j && (s.mouse_state.button_old j != s.mouse_state.button j)) ∧
    (l.foldl translateButton s).mouse_state.button_released j =
      (s.mouse_state.button j && (s.mouse_state.button_old j != s.mouse_state.button j)) ∧
    (l.foldl translateButton s).mouse_state.button_old j = s.mouse_state.button j := by
  induction l generalizing s with
  | nil => exact absurd hj (List.not_mem_nil j)
  | cons i l ih =>
    rw [List.foldl_cons]
    obtain ⟨hil, hl⟩ := List.nodup_cons.mp hnd
    rcases List.mem_cons.mp hj with rfl | hjl
    · obtain ⟨h1, h2, h3⟩ := foldl_translateButton_not_mem l (translateButton s j) j hil
      obtain ⟨a1, a2, a3⟩ := translateButton_at s j
      exact ⟨h1.trans a1, h2.trans a2, h3.trans a3⟩
    · have hji : j ≠ i := fun h => hil (h ▸ hjl)
      obtain ⟨h1, h2, h3⟩ := ih hl (translateButton s i) hjl
      obtain ⟨_, _, o3⟩ := translateButton_other s i j hji
      obtain ⟨_, _, _, _, f5⟩ := translateButton_frame s i
      rw [f5, o3] at h1 h2
      rw [f5] at h3
      exact ⟨h1, h2, h3⟩

/-- Effect of `TranslateInput` on the keys: the current array is untouched and,
for every key, the three derived entries are functions of the values before. -/
theorem TranslateInput_keys (s : InputState) :
    (TranslateInput s).key = s.key ∧
    ∀ i : Fin 256,
      (TranslateInput s).key_pressed i = (!s.key i && (s.key_old i != s.key i)) ∧
      (TranslateInput s).key_released i = (s.key i && (s.key_old i != s.key i)) ∧
      (TranslateInput s).key_old i = s.key i := by
  unfold TranslateInput
  obtain ⟨f1, f2, f3, f4, _⟩ :=
    foldl_translateButton_frame (List.finRange 3) ((List.finRange 256).foldl translateKey s)
  rw [f1, f2, f3, f4]
  refine ⟨(foldl_translateKey_frame _ s).1, fun i => ?_⟩
  exact foldl_translateKey_mem _ (List.nodup_finRange 256) s i (List.mem_finRange i)

/-- Effect of `TranslateInput` on the mouse buttons. -/
theorem TranslateInput_buttons (s : InputState) :
    (TranslateInput s).mouse_state.button = s.mouse_state.button ∧
    ∀ i : Fin 3,
      (TranslateInput s).mouse_state.button_pressed i =
        (!s.mouse_state.button i && (s.mouse_state.button_old i != s.mouse_state.button i)) ∧
      (TranslateInput s).mouse_state.button_released i =
        (s.mouse_state.button i && (s.mouse_state.button_old i != s.mouse_state.button i)) ∧
      (TranslateInput s).mouse_state.button_old i = s.mouse_state.button i := by
  unfold TranslateInput
  have hm := (foldl_translateKey_frame (List.finRange 256) s).2
  obtain ⟨_, _, _, _, f5⟩ :=
    foldl_translateButton_frame (List.finRange 3) ((List.finRange 256).foldl translateKey s)
  refine ⟨by rw [f5, hm], fun i => ?_⟩
  have h := foldl_translateButton_mem _ (List.nodup_finRange 3)
    ((List.finRange 256).foldl translateKey s) i (List.mem_finRange i)
  rw [hm] at h
  exact h

theorem writeKey_fields (s : InputState) (i : Fin 256) (v : Bool) :
    (writeKey s i v).key i = v ∧ (writeKey s i v).key_old = s.key_old := by
  simp [writeKey, setAt]

theorem writeButton_fields (s : InputState) (i : Fin 3) (v : Bool) :
    (writeButton s i v).mouse_state.button i = v ∧
    (writeButton s i v).mouse_state.button_old = s.mouse_state.button_old := by
  simp [writeButton, setAt]

/-! ## Edge detection -/

/-- C1, the behaviour of the code on the transition sequence false, true, true,
false: starting from the value-initialised input state (previous = false), with
the current value of key `i` written as true, true, false before three
consecutive `TranslateInput` calls, the flag `key_pressed[i]` read after the
calls is false, false, true and `key_released[i]` is true, false, false; the
same holds for every mouse button. The flags are the other way round from the
expected press then release order: `key_pressed` is raised by the down to up
transition and `key_released` by the up to down transition. -/
theorem C1_edge_flags_on_press_hold_release (i : Fin 256) (b : Fin 3) :
    ([(TranslateInput (writeKey InputState.zero i true)).key_pressed i,
      (TranslateInput (writeKey (TranslateInput (writeKey InputState.zero i true)) i true)).key_pressed i,
      (TranslateInput (writeKey (TranslateInput (writeKey (TranslateInput
        (writeKey InputState.zero i true)) i true)) i false)).key_pressed i]
        = [false, false, true] ∧
     [(TranslateInput (writeKey InputState.zero i true)).key_released i,
      (TranslateInput (writeKey (TranslateInput (writeKey InputState.zero i true)) i true)).key_released i,
      (TranslateInput (writeKey (TranslateInput (writeKey (TranslateInput
        (writeKey InputState.zero i true)) i true)) i false)).key_released i]
        = [true, false, false]) ∧
    ([(TranslateInput (writeButton InputState.zero b true)).mouse_state.button_pressed b,
      (TranslateInput (writeButton (TranslateInput
        (writeButton InputState.zero b true)) b true)).mouse_state.button_pressed b,
      (TranslateInput (writeButton (TranslateInput (writeButton (TranslateInput
        (writeButton InputState.zero b true)) b true)) b false)).mouse_state.button_pressed b]
        = [false, false, true] ∧
     [(TranslateInput (writeButton InputState.zero b true)).mouse_state.button_released b,
      (TranslateInput (writeButton (TranslateInput
        (writeButton InputState.zero b true)) b true)).mouse_state.button_released b,
      (TranslateInput (writeButton (TranslateInput (writeButton (TranslateInput
        (writeButton InputState.zero b true)) b true)) b false)).mouse_state.button_released b]
        = [true, false, false]) := by
  have K := fun s => (TranslateInput_keys s).2 i
  have B := fun s => (TranslateInput_buttons s).2 b
  have wk := fun s v => writeKey_fields s i v
  have wb := fun s v => writeButton_fields s b v
  refine ⟨⟨?_, ?_⟩, ⟨?_, ?_⟩⟩
  · simp [K, wk, InputState.zero]
  · simp [K, wk, InputState.zero]
  · simp [B, wb, InputState.zero, MouseState.zero]
  · simp [B, wb, InputState.zero, MouseState.zero]

/-- C2: after one `TranslateInput` call, for every key
`key_pressed[i] = (NOT key[i]) AND (key_old[i] != key[i])` and
`key_released[i] = key[i] AND (key_old[i] != key[i])`, with `key` and `key_old`
the values before the call; the same two equations hold for the pressed and
released flags of every mouse button. -/
theorem C2_TranslateInput_edge_policy (s : InputState) :
    (∀ i : Fin 256,
      (TranslateInput s).key_pressed i = (!s.key i && (s.key_old i != s.key i)) ∧
      (TranslateInput s).key_released i = (s.key i && (s.key_old i != s.key i))) ∧
    (∀ i : Fin 3,
      (TranslateInput s).mouse_state.button_pressed i =
        (!s.mouse_state.button i && (s.mouse_state.button_old i != s.mouse_state.button i)) ∧
      (TranslateInput s).mouse_state.button_released i =
        (s.mouse_state.button i && (s.mouse_state.button_old i != s.mouse_state.button i))) :=
  ⟨fun i => ⟨((TranslateInput_keys s).2 i).1, ((TranslateInput_keys s).2 i).2.1⟩,
   fun i => ⟨((TranslateInput_buttons s).2 i).1, ((TranslateInput_buttons s).2 i).2.1⟩⟩

/-- C3: after `TranslateInput` the previous snapshot equals the current state
for all 256 keys and all 3 mouse buttons, whether or not a transition occurred;
the current fields are unchanged by the call; and a second `TranslateInput`
with no producer write in between leaves every pressed and released flag
false. -/
theorem C3_TranslateInput_previous_follows_current (s : InputState) :
    (∀ i : Fin 256,
      (TranslateInput s).key_old i = (TranslateInput s).key i ∧
      (TranslateInput s).key i = s.key i ∧
      (TranslateInput (TranslateInput s)).key_pressed i = false ∧
      (TranslateInput (TranslateInput s)).key_released i = false) ∧
    (∀ i : Fin 3,
      (TranslateInput s).mouse_state.button_old i = (TranslateInput s).mouse_state.button i ∧
      (TranslateInput s).mouse_state.button i = s.mouse_state.button i ∧
      (TranslateInput (TranslateInput s)).mouse_state.button_pressed i = false ∧
      (TranslateInput (TranslateInput s)).mouse_state.button_released i = false) := by
  constructor
  · intro i
    obtain ⟨hk, hf⟩ := TranslateInput_keys s
    obtain ⟨_, hf2⟩ := TranslateInput_keys (TranslateInput s)
    obtain ⟨_, _, ho⟩ := hf i
    obtain ⟨p2, r2, _⟩ := hf2 i
    refine ⟨by rw [ho, hk], by rw [hk], ?_, ?_⟩
    · rw [p2, ho, hk]; simp
    · rw [r2, ho, hk]; simp
  · intro i
    obtain ⟨hk, hf⟩ := TranslateInput_buttons s
    obtain ⟨_, hf2⟩ := TranslateInput_buttons (TranslateInput s)
    obtain ⟨_, _, ho⟩ := hf i
    obtain ⟨p2, r2, _⟩ := hf2 i
    refine ⟨by rw [ho, hk], by rw [hk], ?_, ?_⟩
    · rw [p2, ho, hk]; simp
    · rw [r2, ho, hk]; simp

/-- C10: after `TranslateInput` no key and no mouse button has both its
pressed flag and its released flag set, and both flags are false whenever the
current value equalled the previous value before the call. -/
theorem C10_pressed_released_exclusive (s : InputState) :
    (∀ i : Fin 256,
      ¬ ((TranslateInput s).key_pressed i = true ∧ (TranslateInput s).key_released i = true) ∧
      (s.key i = s.key_old i →
        (TranslateInput s).key_pressed i = false ∧ (TranslateInput s).key_released i = false)) ∧
    (∀ i : Fin 3,
      ¬ ((TranslateInput s).mouse_state.button_pressed i = true ∧
         (TranslateInput s).mouse_state.button_released i = true) ∧
      (s.mouse_state.button i = s.mouse_state.button_old i →
        (TranslateInput s).mouse_state.button_pressed i = false ∧
        (TranslateInput s).mouse_state.button_released i = false)) := by
  constructor
  · intro i
    obtain ⟨p, r, _⟩ := (TranslateInput_keys s).2 i
    rw [p, r]
    cases s.key i <;> cases s.key_old i <;> simp
  · intro i
    obtain ⟨p, r, _⟩ := (TranslateInput_buttons s).2 i
    rw [p, r]
    cases s.mouse_state.button i <;> cases s.mouse_state.button_old i <;> simp

/-- C10 at a concrete input: key 32 of the value-initialised state has current
equal to previous, so both its flags are false after the call. -/
theorem C10_pressed_released_exclusive_witness :
    InputState.zero.key 32 = InputState.zero.key_old 32 ∧
    (TranslateInput InputState.zero).key_pressed 32 = false ∧
    (TranslateInput InputState.zero).key_released 32 = false :=
  ⟨rfl, ((C10_pressed_released_exclusive InputState.zero).1 32).2 rfl⟩

/-! ## Motion queue -/

theorem drainMotions_eq {S : Type} (onMouseMotion : S → MouseMotion → S) (scene : S)
    (q : List MouseMotion) :
    drainMotions onMouseMotion scene q = (q.foldl onMouseMotion scene, []) := by
  induction q generalizing scene with
  | nil => rfl
  | cons motion rest ih => simp [drainMotions, ih]

theorem foldl_recordMotion (seen q : List MouseMotion) :
    q.foldl recordMotion seen = seen ++ q := by
  induction q generalizing seen with
  | nil => simp
  | cons motion rest ih => simp [ih, recordMotion]

/-- C4: for every finite list of motion events queued in `mouse_motions`, one
`HandleInput` call hands the queued events to the main camera's
`OnMouseMotion` one by one in enqueue order (the scene after the loop is the
left fold of the handler over the queue), a camera that records what it
receives ends with exactly the queued list appended to what it had seen, and
`mouse_motions` is empty when the drain loop ends and when `HandleInput`
returns. -/
theorem C4_HandleInput_drains_queue_in_fifo_order {W C G S : Type}
    (onMouseMotion : S → MouseMotion → S) (sceneHandleInput : S → InputState → S)
    (app : SoftRasterApp W C G S) (seen q : List MouseMotion) :
    drainMotions onMouseMotion app.scene app.mouse_motions
      = (app.mouse_motions.foldl onMouseMotion app.scene, []) ∧
    (HandleInput onMouseMotion sceneHandleInput app).mouse_motions = [] ∧
    (HandleInput onMouseMotion sceneHandleInput app).scene
      = sceneHandleInput (app.mouse_motions.foldl onMouseMotion app.scene)
          (TranslateInput app.input_state) ∧
    drainMotions recordMotion seen q = (seen ++ q, []) ∧
    drainMotions recordMotion [] sampleMotions = (sampleMotions, []) := by
  refine ⟨drainMotions_eq _ _ _, ?_, ?_, ?_, ?_⟩
  · simp [HandleInput, drainMotions_eq]
  · simp [HandleInput, drainMotions_eq]
  · rw [drainMotions_eq, foldl_recordMotion]
  · rw [drainMotions_eq, foldl_recordMotion]; rfl

/-! ## Frame timing -/

theorem UpdateTime_fields (tpm : Int) (e : EngineState) (now : Int) :
    (UpdateTime tpm e now).time = now ∧
    (UpdateTime tpm e now).delta = Int.tdiv (now - e.time) tpm ∧
    (UpdateTime tpm e now).delta_count = Int.tdiv (now - e.time) tpm ∧
    (UpdateTime tpm e now).total_time = e.total_time + Int.tdiv (now - e.time) tpm ∧
    (UpdateTime tpm e now).frame_count = e.frame_count + 1 :=
  ⟨rfl, rfl, rfl, rfl, rfl⟩

theorem tdiv_forward (tpm : Int) (htpm : 0 < tpm) (last now : Int) (h : last ≤ now) :
    Int.tdiv (now - last) tpm = (now - last) / tpm :=
  Int.tdiv_eq_ediv (by omega) (le_of_lt htpm)

/-- The state after the first `k` of the calls, from any start state. -/
theorem runUpdateTime_take (tpm : Int) (htpm : 0 < tpm) (readings : List Int) :
    ∀ (e : EngineState) (k : Nat), List.Chain (fun a b => a ≤ b) e.time readings →
      k ≤ readings.length →
      (runUpdateTime tpm e (readings.take k)).frame_count = e.frame_count + k ∧
      (runUpdateTime tpm e (readings.take k)).total_time
        = e.total_time + (msDeltas tpm e.time (readings.take k)).sum ∧
      (runUpdateTime tpm e (readings.take k)).time = reading e.time readings k ∧
      (0 < k →
        (runUpdateTime tpm e (readings.take k)).delta_count
          = (reading e.time readings k - reading e.time readings (k - 1)) / tpm ∧
        (runUpdateTime tpm e (readings.take k)).delta
          = (runUpdateTime tpm e (readings.take k)).delta_count) := by
  induction readings with
  | nil =>
    intro e k _ hk
    have hk0 : k = 0 := by simpa using hk
    subst hk0
    simp [runUpdateTime, msDeltas, reading]
  | cons t ts ih =>
    intro e k hc hk
    cases k with
    | zero => simp [runUpdateTime, msDeltas, reading]
    | succ k =>
      obtain ⟨hle, hc2⟩ := List.chain_cons.mp hc
      have hk2 : k ≤ ts.length := by simpa using hk
      obtain ⟨f1, f2, f3, f4⟩ := ih (UpdateTime tpm e t) k hc2 hk2
      have hrun : runUpdateTime tpm e ((t :: ts).take (k + 1))
          = runUpdateTime tpm (UpdateTime tpm e t) (ts.take k) := by
        simp [runUpdateTime]
      have hd := tdiv_forward tpm htpm e.time t hle
      obtain ⟨u1, u2, u3, u4, u5⟩ := UpdateTime_fields tpm e t
      rw [hrun]
      rw [u1] at f2 f3 f4
      refine ⟨by rw [f1, u5]; omega, ?_, ?_, ?_⟩
      · rw [f2, u4, hd]
        simp [msDeltas]
        omega
      · rw [f3]
        simp [reading]
      · intro _
        cases k with
        | zero =>
          simp only [List.take_zero, runUpdateTime, List.foldl_nil]
          rw [u3, u2, hd]
          simp [reading]
        | succ j =>
          obtain ⟨g1, g2⟩ := f4 (Nat.succ_pos j)
          refine ⟨?_, g2⟩
          rw [g1]
          simp [reading]

theorem msDeltas_length (tpm : Int) (readings : List Int) :
    ∀ prev : Int, (msDeltas tpm prev readings).length = readings.length := by
  induction readings with
  | nil => intro _; rfl
  | cons t ts ih => intro _; simp [msDeltas, ih]

theorem reading_step_le (readings : List Int) :
    ∀ (t0 : Int) (k : Nat), List.Chain (fun a b => a ≤ b) t0 readings →
      k < readings.length → reading t0 readings k ≤ reading t0 readings (k + 1) := by
  induction readings with
  | nil => intro _ k _ hk; simp at hk
  | cons t ts ih =>
    intro t0 k hc hk
    obtain ⟨hle, hc2⟩ := List.chain_cons.mp hc
    cases k with
    | zero => simpa [reading] using hle
    | succ j =>
      have hj : j < ts.length := by simpa using hk
      have := ih t j hc2 hj
      simpa [reading] using this

/-- C5: starting from `frame_count = 0`, `total_time = 0` and `time = t0`, for
every non-decreasing sequence of clock readings fed to consecutive `UpdateTime`
calls, after the `k`-th call `frame_count = k` (one more per call, also on a
zero delta), `total_time` is the sum of the `k` millisecond deltas so far, and
for `k ≥ 1` `delta_count` is the whole-millisecond value of `t_k - t_(k-1)`:
the integer `d ≥ 0` with `d * tpm ≤ t_k - t_(k-1) < (d + 1) * tpm`. -/
theorem C5_UpdateTime_frame_timing (tpm : Int) (htpm : 0 < tpm) (t0 : Int)
    (readings : List Int) (hmono : List.Chain (fun a b => a ≤ b) t0 readings)
    (k : Nat) (hk : k ≤ readings.length) :
    (runUpdateTime tpm (initialEngineState t0) (readings.take k)).frame_count = k ∧
    (runUpdateTime tpm (initialEngineState t0) (readings.take k)).total_time
      = (msDeltas tpm t0 (readings.take k)).sum ∧
    (msDeltas tpm t0 (readings.take k)).length = k ∧
    (0 < k →
      (runUpdateTime tpm (initialEngineState t0) (readings.take k)).delta_count
        = (reading t0 readings k - reading t0 readings (k - 1)) / tpm ∧
      0 ≤ (runUpdateTime tpm (initialEngineState t0) (readings.take k)).delta_count ∧
      (runUpdateTime tpm (initialEngineState t0) (readings.take k)).delta_count * tpm
        ≤ reading t0 readings k - reading t0 readings (k - 1) ∧
      reading t0 readings k - reading t0 readings (k - 1)
        < ((runUpdateTime tpm (initialEngineState t0) (readings.take k)).delta_count + 1) * tpm) := by
  obtain ⟨f1, f2, _, f4⟩ :=
    runUpdateTime_take tpm htpm readings (initialEngineState t0) k hmono hk
  have hlen : (msDeltas tpm t0 (readings.take k)).length = k := by
    rw [msDeltas_length, List.length_take]
    exact Nat.min_eq_left hk
  refine ⟨by simpa [initialEngineState] using f1, by simpa [initialEngineState] using f2,
    hlen, fun hpos => ?_⟩
  obtain ⟨g1, _⟩ := f4 hpos
  have gdc : (runUpdateTime tpm (initialEngineState t0) (readings.take k)).delta_count
      = (reading t0 readings k - reading t0 readings (k - 1)) / tpm := g1
  obtain ⟨j, rfl⟩ : ∃ j, k = j + 1 := ⟨k - 1, by omega⟩
  have hstep := reading_step_le readings t0 j hmono (by omega)
  have hnn : 0 ≤ reading t0 readings (j + 1) - reading t0 readings (j + 1 - 1) := by
    simp only [Nat.add_sub_cancel]
    omega
  rw [gdc]
  refine ⟨rfl, Int.ediv_nonneg hnn (le_of_lt htpm), Int.ediv_mul_le _ (ne_of_gt htpm),
    Int.lt_ediv_add_one_mul_self _ htpm⟩

/-- C5 at the readings `T0`, `T0 + 16 ms`, `T0 + 33 ms` (10000 ticks per
millisecond, `T0 = 0`): after the second call the frame counter is 2, the
cumulative time 33 and the delta 17; the two deltas are 16 and 17. -/
theorem C5_UpdateTime_frame_timing_witness :
    (0 : Int) < 10000 ∧
    List.Chain (fun a b : Int => a ≤ b) 0 [160000, 330000] ∧
    (runUpdateTime 10000 (initialEngineState 0) [160000, 330000]).frame_count = 2 ∧
    (runUpdateTime 10000 (initialEngineState 0) [160000, 330000]).total_time = 33 ∧
    msDeltas 10000 0 [160000, 330000] = [16, 17] ∧
    (runUpdateTime 10000 (initialEngineState 0) [160000, 330000]).delta_count = 17 := by
  have h := C5_UpdateTime_frame_timing 10000 (by decide) 0 [160000, 330000]
    (by simp) 2 (by simp)
  obtain ⟨h1, h2, _, h4⟩ := h
  have hd : msDeltas 10000 0 [160000, 330000] = [16, 17] := by decide
  refine ⟨by decide, by simp, h1, ?_, hd, ?_⟩
  · have htot : (runUpdateTime 10000 (initialEngineState 0) [160000, 330000]).total_time
        = (msDeltas 10000 0 [160000, 330000]).sum := h2
    rw [htot, hd]; rfl
  · have hdq := (h4 (by decide)).1
    have hdc : (runUpdateTime 10000 (initialEngineState 0) [160000, 330000]).delta_count
        = (reading 0 [160000, 330000] 2 - reading 0 [160000, 330000] (2 - 1)) / 10000 := hdq
    rw [hdc]; decide

/-- C6, counterexample: with 10000 ticks per millisecond, previous timestamp
10000000 (1000 ms) and a new reading 0, `UpdateTime` stores the delta -1000 in
`delta` and `delta_count`, and `total_time` drops from 5000 to 4000. Nothing
clamps the delta. -/
theorem C6_backward_reading_negative_delta :
    (UpdateTime 10000
      { time := 10000000, delta := 0, delta_count := 0, total_time := 5000, frame_count := 1 }
      0).delta_count = -1000 ∧
    ¬ (0 ≤ (UpdateTime 10000
      { time := 10000000, delta := 0, delta_count := 0, total_time := 5000, frame_count := 1 }
      0).delta) ∧
    (UpdateTime 10000
      { time := 10000000, delta := 0, delta_count := 0, total_time := 5000, frame_count := 1 }
      0).total_time = 4000 := by
  decide

/-- C6, amended: for every previous timestamp and every new clock reading that
is not earlier than it, the delta stored by `UpdateTime` (`delta` and
`delta_count`) is non-negative and `total_time` does not decrease. The delta is
not clamped: for a reading at least one millisecond earlier than the previous
timestamp the stored delta is negative and `total_time` decreases. -/
theorem C6_UpdateTime_delta_sign (tpm : Int) (htpm : 0 < tpm) (e : EngineState) (now : Int) :
    (e.time ≤ now →
      0 ≤ (UpdateTime tpm e now).delta ∧ 0 ≤ (UpdateTime tpm e now).delta_count ∧
      e.total_time ≤ (UpdateTime tpm e now).total_time) ∧
    (now + tpm ≤ e.time →
      (UpdateTime tpm e now).delta < 0 ∧ (UpdateTime tpm e now).delta_count < 0 ∧
      (UpdateTime tpm e now).total_time < e.total_time) := by
  obtain ⟨_, u2, u3, u4, _⟩ := UpdateTime_fields tpm e now
  rw [u2, u3, u4]
  constructor
  · intro h
    have hnn : 0 ≤ Int.tdiv (now - e.time) tpm := by
      rw [tdiv_forward tpm htpm e.time now h]
      exact Int.ediv_nonneg (by omega) (le_of_lt htpm)
    exact ⟨hnn, hnn, by omega⟩
  · intro h
    have hneg : Int.tdiv (now - e.time) tpm < 0 := by
      have h1 : now - e.time = -(e.time - now) := by ring
      rw [h1, Int.neg_tdiv, tdiv_forward tpm htpm now e.time (by omega)]
      have : 1 ≤ (e.time - now) / tpm :=
        (Int.le_ediv_iff_mul_le htpm).mpr (by omega)
      omega
    exact ⟨hneg, hneg, by omega⟩

/-- C6 amended, at concrete inputs: a forward reading of 16 ms gives delta 16,
a backward reading of 1000 ms gives a negative delta. -/
theorem C6_UpdateTime_delta_sign_witness :
    (0 ≤ (UpdateTime 10000 (initialEngineState 0) 160000).delta_count) ∧
    ((UpdateTime 10000 (initialEngineState 10000000) 0).delta_count < 0) :=
  ⟨((C6_UpdateTime_delta_sign 10000 (by decide) (initialEngineState 0) 160000).1
      (by decide)).2.1,
   ((C6_UpdateTime_delta_sign 10000 (by decide) (initialEngineState 10000000) 0).2
      (by decide)).2.1⟩

/-! ## Platform callbacks -/

theorem onMouseMove_eq {W C G S : Type} (app : SoftRasterApp W C G S) (w l : Nat) :
    (onMouseMove app w l).input_state.mouse_state = movedMouse app.input_state.mouse_state l ∧
    (onMouseMove app w l).mouse_motions = app.mouse_motions ++
      [{ kind := WM_MOUSEMOVE, mouse_state := movedMouse app.input_state.mouse_state l }] :=
  ⟨rfl, rfl⟩

theorem deliverMouseMoves_queue {W C G S : Type} (lParams : List Nat) :
    ∀ app : SoftRasterApp W C G S,
      (deliverMouseMoves app lParams).mouse_motions
        = app.mouse_motions ++ moveSnapshots app.input_state.mouse_state lParams := by
  induction lParams with
  | nil => intro app; simp [deliverMouseMoves, moveSnapshots]
  | cons l ls ih =>
    intro app
    have h := ih (onMouseMove app 0 l)
    obtain ⟨e1, e2⟩ := onMouseMove_eq app 0 l
    rw [e1, e2] at h
    simp only [deliverMouseMoves, List.foldl_cons] at h ⊢
    rw [h]
    simp [moveSnapshots]

theorem moveSnapshots_length (lParams : List Nat) :
    ∀ m : MouseState, (moveSnapshots m lParams).length = lParams.length := by
  induction lParams with
  | nil => intro _; rfl
  | cons l ls ih => intro _; simp [moveSnapshots, ih]

theorem moveSnapshots_get (lParams : List Nat) :
    ∀ (m0 : MouseState) (k : Nat), k < lParams.length →
      ∃ ev, (moveSnapshots m0 lParams)[k]? = some ev ∧
        ev.kind = WM_MOUSEMOVE ∧
        ev.mouse_state.x = (cursorAt m0 lParams (k + 1)).1 ∧
        ev.mouse_state.y = (cursorAt m0 lParams (k + 1)).2 ∧
        ev.mouse_state.dx = (cursorAt m0 lParams (k + 1)).1 - (cursorAt m0 lParams k).1 ∧
        ev.mouse_state.dy = (cursorAt m0 lParams (k + 1)).2 - (cursorAt m0 lParams k).2 := by
  induction lParams with
  | nil => intro _ k hk; simp at hk
  | cons l ls ih =>
    intro m0 k hk
    cases k with
    | zero =>
      exact ⟨{ kind := WM_MOUSEMOVE, mouse_state := movedMouse m0 l },
        by simp [moveSnapshots], rfl, rfl, rfl, rfl, rfl⟩
    | succ j =>
      have hj : j < ls.length := by simpa using hk
      obtain ⟨ev, h0, h1, h2, h3, h4, h5⟩ := ih (movedMouse m0 l) j hj
      refine ⟨ev, by simpa [moveSnapshots] using h0, h1, ?_, ?_, ?_, ?_⟩
      · simpa [cursorAt] using h2
      · simpa [cursorAt] using h3
      · cases j with
        | zero => simpa [cursorAt, movedMouse, cursorPos] using h4
        | succ i => simpa [cursorAt] using h4
      · cases j with
        | zero => simpa [cursorAt, movedMouse, cursorPos] using h5
        | succ i => simpa [cursorAt] using h5

/-- C7: for every run of mouse-move messages delivered to the `WM_MOUSEMOVE`
callback with no drain in between, the queue grows by one snapshot per message
behind what was queued before, and the `k`-th snapshot pushed has
`x = x_k`, `y = y_k`, `dx = x_k - x_(k-1)` and `dy = y_k - y_(k-1)`, where
`(x_0, y_0)` is the position recorded in the input state before the first
message: each queued event carries the delta computed when it was observed. -/
theorem C7_mouse_move_snapshots_carry_own_delta {W C G S : Type}
    (app : SoftRasterApp W C G S) (lParams : List Nat) (k : Nat) (hk : k < lParams.length) :
    (deliverMouseMoves app lParams).mouse_motions.length
      = app.mouse_motions.length + lParams.length ∧
    (deliverMouseMoves app lParams).mouse_motions.take app.mouse_motions.length
      = app.mouse_motions ∧
    ∃ ev, (deliverMouseMoves app lParams).mouse_motions[app.mouse_motions.length + k]? = some ev ∧
      ev.kind = WM_MOUSEMOVE ∧
      ev.mouse_state.x = (cursorAt app.input_state.mouse_state lParams (k + 1)).1 ∧
      ev.mouse_state.y = (cursorAt app.input_state.mouse_state lParams (k + 1)).2 ∧
      ev.mouse_state.dx = (cursorAt app.input_state.mouse_state lParams (k + 1)).1
        - (cursorAt app.input_state.mouse_state lParams k).1 ∧
      ev.mouse_state.dy = (cursorAt app.input_state.mouse_state lParams (k + 1)).2
        - (cursorAt app.input_state.mouse_state lParams k).2 := by
  rw [deliverMouseMoves_queue]
  refine ⟨by simp [moveSnapshots_length], by simp, ?_⟩
  obtain ⟨ev, h0, h⟩ := moveSnapshots_get lParams app.input_state.mouse_state k hk
  refine ⟨ev, ?_, h⟩
  rw [List.getElem?_append_right (Nat.le_add_right _ _)]
  simpa using h0

/-- C7 at a concrete run: from the recorded position (120, 80), the messages
for the positions (130, 100) and (-1, 90) are delivered; the second snapshot
pushed has `x = -1`, `y = 90`, `dx = -131`, `dy = -10`. -/
theorem C7_mouse_move_snapshots_carry_own_delta_witness :
    1 < [6553730, 5963775].length ∧
    ∃ ev, (deliverMouseMoves heldButtonApp [6553730, 5963775]).mouse_motions[1]? = some ev ∧
      ev.mouse_state.x = -1 ∧ ev.mouse_state.y = 90 ∧
      ev.mouse_state.dx = -131 ∧ ev.mouse_state.dy = -10 := by
  obtain ⟨_, _, ev, h0, _, hx, hy, hdx, hdy⟩ :=
    C7_mouse_move_snapshots_carry_own_delta heldButtonApp [6553730, 5963775] 1 (by decide)
  refine ⟨by decide, ev, h0, ?_, ?_, ?_, ?_⟩
  · rw [hx]; decide
  · rw [hy]; decide
  · rw [hdx]; decide
  · rw [hdy]; decide

/-- C8, counterexample: with the left button held and already translated
(`button_old[0]` true), the `WM_MOUSELEAVE` callback replaces the whole mouse
state by the zero value, so `button_old[0]` is false after the callback: the
previous snapshot of the buttons is not left unchanged. -/
theorem C8_mouse_leave_resets_button_old :
    heldButtonApp.input_state.mouse_state.button_old 0 = true ∧
    (HookInput WndMsg.WM_MOUSELEAVE heldButtonApp 0 0).input_state.mouse_state.button_old 0
      = false ∧
    (HookInput WndMsg.WM_MOUSELEAVE heldButtonApp 0 0).input_state.mouse_state.button_old
      ≠ heldButtonApp.input_state.mouse_state.button_old := by
  refine ⟨by decide, by decide, fun h => ?_⟩
  have h0 := congrFun h 0
  exact absurd h0 (by decide)

/-- C8, amended: every callback registered by `HookInput` leaves `key_old`,
`key_pressed` and `key_released` unchanged for every input state and every
message argument; every callback other than the `WM_MOUSELEAVE` one also
leaves `button_old`, `button_pressed` and `button_released` unchanged; the
`WM_MOUSELEAVE` callback replaces the whole mouse state, these three arrays
included, by the zero value and enqueues nothing. -/
theorem C8_callbacks_and_derived_fields {W C G S : Type} (msg : WndMsg)
    (app : SoftRasterApp W C G S) (wParam lParam : Nat) :
    ((HookInput msg app wParam lParam).input_state.key_old = app.input_state.key_old ∧
     (HookInput msg app wParam lParam).input_state.key_pressed = app.input_state.key_pressed ∧
     (HookInput msg app wParam lParam).input_state.key_released
       = app.input_state.key_released) ∧
    (msg ≠ WndMsg.WM_MOUSELEAVE →
      (HookInput msg app wParam lParam).input_state.mouse_state.button_old
        = app.input_state.mouse_state.button_old ∧
      (HookInput msg app wParam lParam).input_state.mouse_state.button_pressed
        = app.input_state.mouse_state.button_pressed ∧
      (HookInput msg app wParam lParam).input_state.mouse_state.button_released
        = app.input_state.mouse_state.button_released) ∧
    (msg = WndMsg.WM_MOUSELEAVE →
      (HookInput msg app wParam lParam).input_state.mouse_state = MouseState.zero ∧
      (HookInput msg app wParam lParam).mouse_motions = app.mouse_motions) := by
  cases msg <;>
    simp [HookInput, onKeyDown, onKeyUp, onMouseMove, onMouseLeave, onLButtonDown, onLButtonUp,
      onRButtonDown, onRButtonUp, onMButtonDown, onMButtonUp, onMouseWheel, setButton,
      writeKey, writeButton]

/-- C8 amended, at concrete inputs: the `WM_LBUTTONUP` callback on the held
button state keeps `button_old`, and the `WM_MOUSELEAVE` callback leaves the
zero mouse state. -/
theorem C8_callbacks_and_derived_fields_witness :
    (HookInput WndMsg.WM_LBUTTONUP heldButtonApp 0 0).input_state.mouse_state.button_old
      = heldButtonApp.input_state.mouse_state.button_old ∧
    (HookInput WndMsg.WM_MOUSELEAVE heldButtonApp 0 0).input_state.mouse_state
      = MouseState.zero :=
  ⟨((C8_callbacks_and_derived_fields WndMsg.WM_LBUTTONUP heldButtonApp 0 0).2.1
      (by decide)).1,
   ((C8_callbacks_and_derived_fields WndMsg.WM_MOUSELEAVE heldButtonApp 0 0).2.2 rfl).1⟩

/-! ## Move constructor -/

/-- C9, the behaviour of the code: the engine produced by the move constructor
has the input state, engine state, window, colour render target and scene of
the source, but its G-buffer render target is the default-constructed one and
its motion queue is empty, whatever the source held. For the application after
`Init`, whose G-buffer has the 800 x 600 viewport, the G-buffer of the moved-to
engine differs from the source's. -/
theorem C9_moveConstruct_leaves_gbuffer_default {W C G S : Type} (gbuffer0 : G)
    (other : SoftRasterApp W C G S) :
    ((moveConstruct gbuffer0 other).input_state = other.input_state ∧
     (moveConstruct gbuffer0 other).engine_state = other.engine_state ∧
     (moveConstruct gbuffer0 other).dc_wnd = other.dc_wnd ∧
     (moveConstruct gbuffer0 other).ctx = other.ctx ∧
     (moveConstruct gbuffer0 other).scene = other.scene) ∧
    (moveConstruct gbuffer0 other).gbuffer = gbuffer0 ∧
    (moveConstruct gbuffer0 other).mouse_motions = [] ∧
    (moveConstruct (0, 0) initedApp).ctx = (800, 600) ∧
    (moveConstruct (0, 0) initedApp).gbuffer = (0, 0) ∧
    (moveConstruct (0, 0) initedApp).gbuffer ≠ initedApp.gbuffer := by
  refine ⟨⟨rfl, rfl, rfl, rfl, rfl⟩, rfl, rfl, rfl, rfl, ?_⟩
  decide

end framework
